import Mathlib

/-!
# Verification of `scanapi/tree/request_node.py`

A shallow embedding of the `RequestNode` class of the scanapi repository.
Configuration values (YAML-derived) are modelled by the inductive `CVal`;
Python dictionaries by association lists with first-match lookup; the
mutable `SpecEvaluator` namespace attached to an endpoint is threaded
explicitly through `RequestNode.run`, which also returns the ordered trace
of collaborator invocations so that ordering properties of `run` can be
stated.  Collaborators whose code lives outside `request_node.py`
(`join_urls`, `validate_keys`, `SpecEvaluator.update`,
`hide_sensitive_info`) are modelled from the specification and marked as
such; the template evaluator `SpecEvaluator.evaluate` is kept abstract as
a function parameter `ev` taking the current namespace state.
-/

set_option autoImplicit false

namespace Scanapi

/-- A configuration value: a scalar, a dictionary, or a list, as produced
by the YAML loader and consumed by `RequestNode`. -/
inductive CVal where
  | str (s : String)
  | int (n : Int)
  | bool (b : Bool)
  | null
  | dict (d : List (String × CVal))
  | list (l : List CVal)

/-- Python `str(...)` on a configuration value, as used by
`full_url_path` on the configured path (which in practice is a string). -/
def pyStr : CVal → String
  | .str s => s
  | .int n => toString n
  | .bool true => "True"
  | .bool false => "False"
  | .null => "None"
  | .dict _ => "{...}"
  | .list _ => "[...]"

/-- Dictionary lookup (Python dictionaries are modelled as association
lists): first entry with the given key. -/
def NsLookup : List (String × CVal) → String → Option CVal
  | [], _ => none
  | (k', v) :: t, k => if k' = k then some v else NsLookup t k

/-- Python `{**a, **b}` (and `a.update(b)`): keys of `a` keep their
positions, values overridden by `b` where present; keys of `b` absent
from `a` are appended in `b`'s order. -/
def pyUnion (a b : List (String × CVal)) : List (String × CVal) :=
  a.map (fun p => match NsLookup b p.1 with
    | some v => (p.1, v)
    | none => p)
  ++ b.filter (fun p => (NsLookup a p.1).isNone)

/-- `spec.get(key)` on a configuration fragment. -/
def Spec.get (s : List (String × CVal)) (k : String) : Option CVal :=
  NsLookup s k

/-- `spec.get(key, {})`: the configured sub-dictionary, or empty. -/
def Spec.getDict (s : List (String × CVal)) (k : String) : List (String × CVal) :=
  match NsLookup s k with
  | some (.dict d) => d
  | _ => []

/-- `spec.get("tests", [])`: the configured test specification list. -/
def Spec.getTests (s : List (String × CVal)) : List CVal :=
  match NsLookup s "tests" with
  | some (.list l) => l
  | _ => []

/-- `spec.keys()`. -/
def Spec.keys (s : List (String × CVal)) : List String :=
  s.map (·.1)

/-! ## HTTP method resolution (`RequestNode.http_method`) -/

/-- `HTTPMethodNotAllowedError(method, allowed_values)` from
`scanapi.errors`. -/
structure HTTPMethodNotAllowedError where
  method : String
  allowed_values : List String
  deriving DecidableEq, Repr

/-- `RequestNode.ALLOWED_HTTP_METHODS`. -/
def ALLOWED_HTTP_METHODS : List String :=
  ["GET", "POST", "PUT", "PATCH", "DELETE"]

/-- Python `str.upper()`, character by character (ASCII, which is all
that HTTP method strings use). -/
def pyUpper (s : String) : String :=
  String.mk (s.data.map Char.toUpper)

/-- `RequestNode.http_method`: `self.spec.get(METHOD_KEY, "get").upper()`,
validated against `ALLOWED_HTTP_METHODS`. -/
def http_method (spec : List (String × CVal)) :
    Except HTTPMethodNotAllowedError String :=
  let method := pyUpper (match Spec.get spec "method" with
    | some (.str s) => s
    | _ => "get")
  if method ∈ ALLOWED_HTTP_METHODS then .ok method
  else .error ⟨method, ALLOWED_HTTP_METHODS⟩

/-! ## Construction-time key validation (`RequestNode._validate`) -/

/-- A configuration validation error, naming the offending keys and the
node's scope label. -/
inductive ValidationError where
  | invalidKeys (keys : List String) (scope : String)
  | missingKeys (keys : List String) (scope : String)
  deriving DecidableEq, Repr

/-- Modelled from the spec: `validate_keys` from `scanapi.utils` is not
under `src/`; per the specification it checks that the fragment's key set
is a subset of the allowed-key set and a superset of the required-key
set, failing with a validation error naming the offending keys and the
scope label. -/
def validate_keys (keys allowed required : List String) (scope : String) :
    Except ValidationError Unit :=
  match keys.filter (fun k => !(allowed.contains k)) with
  | k₀ :: ks => .error (.invalidKeys (k₀ :: ks) scope)
  | [] =>
    match required.filter (fun k => !(keys.contains k)) with
    | k₀ :: ks => .error (.missingKeys (k₀ :: ks) scope)
    | [] => .ok ()

/-- `RequestNode.ALLOWED_KEYS`. -/
def ALLOWED_KEYS : List String :=
  ["body", "headers", "method", "name", "params", "path", "tests", "vars"]

/-- `RequestNode.REQUIRED_KEYS`. -/
def REQUIRED_KEYS : List String := ["name"]

/-- `RequestNode.SCOPE`. -/
def SCOPE : String := "request"

/-- `RequestNode._validate`, called by `RequestNode.__init__`: validates
only the key set of the configuration fragment. -/
def RequestNode.validate (spec : List (String × CVal)) :
    Except ValidationError Unit :=
  validate_keys (Spec.keys spec) ALLOWED_KEYS REQUIRED_KEYS SCOPE

/-- `RequestNode.__init__`: stores `spec` and `endpoint`, then calls
`self._validate()`. The HTTP method is not examined here. -/
def RequestNode.init (spec : List (String × CVal)) :
    Except ValidationError Unit :=
  RequestNode.validate spec

/-! ## URL path joining (`full_url_path`) -/

/-- Strip all trailing `/` characters. -/
def stripTrailingSlashes (s : String) : String :=
  String.mk ((s.data.reverse.dropWhile (· == '/')).reverse)

/-- Strip all leading `/` characters. -/
def stripLeadingSlashes (s : String) : String :=
  String.mk (s.data.dropWhile (· == '/'))

/-- Modelled from the spec: `join_urls` from `scanapi.utils` is not under
`src/`; per the specification, given base `B` and suffix `S` the result
is `B` and `S` concatenated with exactly one separating slash, regardless
of existing trailing/leading slashes on either side. -/
def join_urls (base path : String) : String :=
  stripTrailingSlashes base ++ "/" ++ stripLeadingSlashes path

/-! ## The endpoint collaborator and the namespace -/

/-- The endpoint data read by `RequestNode`: `endpoint.path`,
`endpoint.headers`, `endpoint.params`, and the registry (current
name-to-value mapping) of the mutable `endpoint.vars` evaluator. -/
structure Endpoint where
  path : String
  headers : List (String × CVal)
  params : List (String × CVal)
  vars : List (String × CVal)

/-- The type of the abstract template evaluator
`endpoint.vars.evaluate`: it receives the namespace state current at the
moment of the call, and the value to resolve. -/
def Evaluator := List (String × CVal) → CVal → CVal

/-- Modelled from the spec: `SpecEvaluator.update` from
`scanapi.evaluators.spec_evaluator` is not under `src/`; per the
specification it merges `bindings` into the namespace (destructively,
existing names overwritten); when `preevaluate` is true each value is
first passed through the template evaluator against the current
namespace state, and `extras` are bound directly without evaluation. -/
def SpecEvaluator.update (ev : Evaluator) (ns : List (String × CVal))
    (bindings extras : List (String × CVal)) (preevaluate : Bool) :
    List (String × CVal) :=
  let bs := if preevaluate then bindings.map (fun p => (p.1, ev ns p.2))
    else bindings
  pyUnion (pyUnion ns bs) extras

/-! ## Request-node properties -/

/-- `RequestNode.full_url_path`: join the endpoint path and the
configured path (`spec.get(PATH_KEY, "")`, stringified), then evaluate
the joined string against the namespace state `ns` current at access
time. -/
def RequestNode.full_url_path (ev : Evaluator) (ns : List (String × CVal))
    (spec : List (String × CVal)) (ep : Endpoint) : CVal :=
  ev ns (.str (join_urls ep.path (pyStr ((Spec.get spec "path").getD (.str "")))))

/-- `RequestNode.headers`: `{**endpoint_headers, **headers}` evaluated as
one structure against the namespace state `ns` current at access time. -/
def RequestNode.headers (ev : Evaluator) (ns : List (String × CVal))
    (spec : List (String × CVal)) (ep : Endpoint) : CVal :=
  ev ns (.dict (pyUnion ep.headers (Spec.getDict spec "headers")))

/-- `RequestNode.params`: `{**endpoint_params, **params}` evaluated as
one structure against the namespace state `ns` current at access time. -/
def RequestNode.params (ev : Evaluator) (ns : List (String × CVal))
    (spec : List (String × CVal)) (ep : Endpoint) : CVal :=
  ev ns (.dict (pyUnion ep.params (Spec.getDict spec "params")))

/-- `RequestNode.body`: `spec.get(BODY_KEY)` (default `None`) evaluated
against the namespace state `ns` current at access time. -/
def RequestNode.body (ev : Evaluator) (ns : List (String × CVal))
    (spec : List (String × CVal)) : CVal :=
  ev ns ((Spec.get spec "body").getD .null)

/-! ## Test results and the result bundle -/

/-- `scanapi.test_status.TestStatus`. -/
inductive TestStatus where
  | PASSED
  | FAILED
  | ERROR
  deriving DecidableEq, Repr

/-- The slice of a `TestingNode.run()` result dictionary consumed by
`RequestNode.run` (only `"status"` is read). -/
structure TestResult where
  status : TestStatus
  deriving DecidableEq, Repr

/-- The dictionary returned by `RequestNode.run`. -/
structure Bundle where
  response : CVal
  tests_results : List TestResult
  no_failure : Bool

/-! ## Sensitive-information redaction -/

/-- The fixed mask token substituted for a redacted value. -/
def SENSITIVE_INFO : String := "SENSITIVE_INFORMATION"

/-- Mask every field of a dictionary whose key is in the sensitive set. -/
def maskFields (sensitive : List String) : CVal → CVal
  | .dict d => .dict (d.map (fun p =>
      (p.1, if p.1 ∈ sensitive then .str SENSITIVE_INFO else p.2)))
  | v => v

/-- Modelled from the spec: `hide_sensitive_info` from
`scanapi.hide_utils` is not under `src/`; per the specification, given a
fixed externally-configured set of field names it replaces each matching
header or body field's value in the response with a fixed mask token. -/
def hide_sensitive_info (sensitive : List String) : CVal → CVal
  | .dict fields => .dict (fields.map (fun p =>
      (p.1, if p.1 = "headers" ∨ p.1 = "body" then maskFields sensitive p.2
        else p.2)))
  | v => v

/-- Look up a header field of a captured response value. -/
def respHeaderLookup (r : CVal) (k : String) : Option CVal :=
  match r with
  | .dict fields =>
    match NsLookup fields "headers" with
    | some (.dict hs) => NsLookup hs k
    | _ => none
  | _ => none

/-! ## `RequestNode.run` -/

/-- One collaborator invocation made during `RequestNode.run`, in
execution order. `evaluate` records the namespace state the evaluator
observed; `update` records the arguments of a `vars.update` call;
`transport` records the arguments of the `requests.request` call
(method, url, headers, params, json body, allow_redirects); `test`
records one `TestingNode.run`; `hide` records `hide_sensitive_info`. -/
inductive Event where
  | evaluate (ns : List (String × CVal)) (v : CVal)
  | update (bindings extras : List (String × CVal)) (preevaluate : Bool)
  | transport (method : String) (url headers params body : CVal)
      (allow_redirects : Bool)
  | test (spec : CVal)
  | hide (resp : CVal)

/-- Is an event a `transport` invocation? -/
def Event.isTransport : Event → Bool
  | .transport _ _ _ _ _ _ => true
  | _ => false

/-- Is an event a `vars.update` invocation? -/
def Event.isUpdate : Event → Bool
  | .update _ _ _ => true
  | _ => false

/-- Is an event a `TestingNode.run` invocation? -/
def Event.isTest : Event → Bool
  | .test _ => true
  | _ => false

/-- Is an event the redaction step? -/
def Event.isHide : Event → Bool
  | .hide _ => true
  | _ => false

/-- `RequestNode.run`, with the endpoint's mutable namespace threaded
explicitly and the ordered trace of collaborator invocations returned
alongside the result bundle. The transport collaborator
(`requests.request`) and the per-test runner (`TestingNode.run`, whose
code is outside this file) are abstract parameters; the test runner
receives the namespace state at the time the tests run. Statements are
executed in source order: `http_method` and `full_url_path` are read
before the pre-call `vars.update`; the `headers`, `params` and `body`
properties are evaluated as arguments of the `requests.request` call,
after it. -/
def RequestNode.run (ev : Evaluator)
    (transport : String → CVal → CVal → CVal → CVal → Bool → CVal)
    (runTest : CVal → List (String × CVal) → TestResult)
    (sensitive : List String)
    (spec : List (String × CVal)) (ep : Endpoint) :
    Except HTTPMethodNotAllowedError (Bundle × List Event) := do
  let method ← http_method spec
  let ns0 := ep.vars
  let url := RequestNode.full_url_path ev ns0 spec ep
  let vars := Spec.getDict spec "vars"
  let ns1 := SpecEvaluator.update ev ns0 vars [] false
  let hdrs := RequestNode.headers ev ns1 spec ep
  let prms := RequestNode.params ev ns1 spec ep
  let bdy := RequestNode.body ev ns1 spec
  let response := transport method url hdrs prms bdy false
  let ns2 := SpecEvaluator.update ev ns1 vars [("response", response)] true
  let tests_results := (Spec.getTests spec).map (fun t => runTest t ns2)
  let masked := hide_sensitive_info sensitive response
  let bundle : Bundle :=
    { response := masked
      tests_results := tests_results
      no_failure := tests_results.all (fun r => r.status == TestStatus.PASSED) }
  let trace : List Event :=
    [.evaluate ns0 (.str (join_urls ep.path (pyStr ((Spec.get spec "path").getD (.str ""))))),
     .update vars [] false,
     .evaluate ns1 (.dict (pyUnion ep.headers (Spec.getDict spec "headers"))),
     .evaluate ns1 (.dict (pyUnion ep.params (Spec.getDict spec "params"))),
     .evaluate ns1 ((Spec.get spec "body").getD .null),
     .transport method url hdrs prms bdy false,
     .update vars [("response", response)] true]
    ++ (Spec.getTests spec).map .test
    ++ [.hide response]
  return (bundle, trace)

/-! ## Lemmas about dictionary lookup and Python dictionary union -/

theorem NsLookup_append (x y : List (String × CVal)) (k : String) :
    NsLookup (x ++ y) k = match NsLookup x k with
      | some v => some v
      | none => NsLookup y k := by
  induction x with
  | nil => simp [NsLookup]
  | cons p t ih =>
    obtain ⟨k', v⟩ := p
    by_cases h : k' = k <;> simp [NsLookup, h, ih]

theorem NsLookup_map_override (a b : List (String × CVal)) (k : String) :
    NsLookup (a.map (fun p => match NsLookup b p.1 with
      | some v => (p.1, v)
      | none => p)) k
    = (NsLookup a k).map (fun va => (NsLookup b k).getD va) := by
  induction a with
  | nil => simp [NsLookup]
  | cons p t ih =>
    obtain ⟨ka, va⟩ := p
    by_cases h : ka = k
    · subst h
      cases hb : NsLookup b ka <;> simp [NsLookup, hb, ih]
    · cases hb : NsLookup b ka <;> simp [NsLookup, h, hb, ih]

theorem NsLookup_filter_new (a b : List (String × CVal)) (k : String) :
    NsLookup (b.filter (fun p => (NsLookup a p.1).isNone)) k
    = match NsLookup a k with
      | none => NsLookup b k
      | some _ => none := by
  induction b with
  | nil => cases ha : NsLookup a k <;> simp [NsLookup, ha]
  | cons p t ih =>
    obtain ⟨kb, vb⟩ := p
    by_cases hk : kb = k
    · subst hk
      cases ha : NsLookup a kb <;>
        simp [NsLookup, List.filter_cons, ha, ih]
    · cases ha : NsLookup a k <;> cases ha' : NsLookup a kb <;>
        simp_all [NsLookup, List.filter_cons, hk]

/-- Lookup in `{**a, **b}`: `b`'s binding wins when present, otherwise
`a`'s binding is used. -/
theorem NsLookup_pyUnion (a b : List (String × CVal)) (k : String) :
    NsLookup (pyUnion a b) k = match NsLookup b k with
      | some v => some v
      | none => NsLookup a k := by
  rw [pyUnion, NsLookup_append, NsLookup_map_override, NsLookup_filter_new]
  cases hb : NsLookup b k <;> cases ha : NsLookup a k <;> simp [hb, ha]

/-! ## C4, C10: HTTP method resolution -/

/-- C4: for every configured method string `s`, `http_method` upper-cases
it and returns it when the result is one of {GET, POST, PUT, PATCH,
DELETE}; otherwise it fails with `HTTPMethodNotAllowedError` carrying the
offending (upper-cased) value and the allowed set.  The check runs at
property-access time only: construction (`__init__`/`_validate`) succeeds
for a request node with any method value, since it validates keys only. -/
theorem http_method_access_time_validation (spec : List (String × CVal))
    (s : String) (h : Spec.get spec "method" = some (.str s)) :
    (pyUpper s ∈ ALLOWED_HTTP_METHODS → http_method spec = .ok (pyUpper s)) ∧
    (pyUpper s ∉ ALLOWED_HTTP_METHODS →
      http_method spec = .error ⟨pyUpper s, ALLOWED_HTTP_METHODS⟩) ∧
    RequestNode.init [("name", .str "n"), ("method", .str s)] = .ok () := by
  refine ⟨?_, ?_, ?_⟩
  · intro hm
    simp [http_method, h, hm]
  · intro hm
    simp [http_method, h, hm]
  · rfl

/-- Witness for C4: `method: "OPTIONS"` is rejected at access time with
the offending value and the allowed set, yet the node constructs fine. -/
theorem http_method_access_time_validation_witness :
    http_method [("method", CVal.str "OPTIONS")]
      = .error ⟨"OPTIONS", ALLOWED_HTTP_METHODS⟩ ∧
    RequestNode.init [("name", CVal.str "n"), ("method", CVal.str "OPTIONS")]
      = .ok () := by
  have h := http_method_access_time_validation
    [("method", CVal.str "OPTIONS")] "OPTIONS" rfl
  exact ⟨by simpa using h.2.1 (by decide), h.2.2⟩

/-- C10: a request node whose configuration has no `method` key resolves
to method `GET`, with no `HTTPMethodNotAllowedError`. -/
theorem http_method_defaults_to_get (spec : List (String × CVal))
    (h : Spec.get spec "method" = none) :
    http_method spec = .ok "GET" := by
  simp [http_method, h]
  rfl

/-- Witness for C10: a node configured with only a name executes as GET. -/
theorem http_method_defaults_to_get_witness :
    http_method [("name", CVal.str "r")] = .ok "GET" :=
  http_method_defaults_to_get [("name", CVal.str "r")] rfl

/-! ## C7: construction-time key validation -/

theorem validate_keys_eq_ok_iff (keys allowed required : List String)
    (scope : String) :
    validate_keys keys allowed required scope = .ok () ↔
      keys.filter (fun k => !(allowed.contains k)) = [] ∧
      required.filter (fun k => !(keys.contains k)) = [] := by
  unfold validate_keys
  constructor
  · intro h
    split at h
    · exact absurd h (by simp)
    · next heq1 =>
      split at h
      · exact absurd h (by simp)
      · next heq2 => exact ⟨heq1, heq2⟩
  · rintro ⟨h1, h2⟩
    split
    · next heq => rw [h1] at heq; cases heq
    · split
      · next heq => rw [h2] at heq; cases heq
      · rfl

theorem validate_keys_invalid (keys allowed required : List String)
    (scope : String)
    (h : keys.filter (fun k => !(allowed.contains k)) ≠ []) :
    validate_keys keys allowed required scope
      = .error (.invalidKeys
          (keys.filter (fun k => !(allowed.contains k))) scope) := by
  unfold validate_keys
  split
  · next heq => rw [heq]
  · next heq => exact absurd heq h

theorem validate_keys_missing (keys allowed required : List String)
    (scope : String)
    (h1 : keys.filter (fun k => !(allowed.contains k)) = [])
    (h2 : required.filter (fun k => !(keys.contains k)) ≠ []) :
    validate_keys keys allowed required scope
      = .error (.missingKeys
          (required.filter (fun k => !(keys.contains k))) scope) := by
  unfold validate_keys
  split
  · next heq => rw [h1] at heq; cases heq
  · split
    · next heq => rw [heq]
    · next heq => exact absurd heq h2

/-- C7: at construction, the configuration fragment's key set must be a
subset of {body, headers, method, name, params, path, tests, vars} and
contain the required key `name`; a violation produces a validation error
naming the offending keys (exactly the keys outside the allowed set, or
the missing required key) and the scope label "request". -/
theorem request_key_validation (spec : List (String × CVal)) :
    (RequestNode.init spec = .ok () ↔
      (∀ k ∈ Spec.keys spec, k ∈ ALLOWED_KEYS) ∧ "name" ∈ Spec.keys spec) ∧
    (∀ k ∈ Spec.keys spec, k ∉ ALLOWED_KEYS →
      ∃ bad, RequestNode.init spec = .error (.invalidKeys bad "request") ∧
        k ∈ bad ∧ ∀ k' ∈ bad, k' ∈ Spec.keys spec ∧ k' ∉ ALLOWED_KEYS) ∧
    ((∀ k ∈ Spec.keys spec, k ∈ ALLOWED_KEYS) → "name" ∉ Spec.keys spec →
      RequestNode.init spec = .error (.missingKeys ["name"] "request")) := by
  refine ⟨?_, ?_, ?_⟩
  · rw [show RequestNode.init spec
        = validate_keys (Spec.keys spec) ALLOWED_KEYS REQUIRED_KEYS SCOPE
        from rfl,
      validate_keys_eq_ok_iff]
    simp [List.filter_eq_nil_iff, REQUIRED_KEYS]
  · intro k hk hnot
    have hmem : k ∈ (Spec.keys spec).filter
        (fun x => !(ALLOWED_KEYS.contains x)) := by
      simp [List.mem_filter, hk, hnot]
    have hne : (Spec.keys spec).filter (fun x => !(ALLOWED_KEYS.contains x))
        ≠ [] := by
      intro h0; rw [h0] at hmem; cases hmem
    refine ⟨(Spec.keys spec).filter (fun x => !(ALLOWED_KEYS.contains x)),
      validate_keys_invalid _ _ _ _ hne, hmem, ?_⟩
    intro k' hk'
    have := List.mem_filter.mp hk'
    simpa using this
  · intro hall hn
    have h1 : (Spec.keys spec).filter (fun x => !(ALLOWED_KEYS.contains x))
        = [] := by
      simp [List.filter_eq_nil_iff]
      exact hall
    have h2 : REQUIRED_KEYS.filter (fun x => !((Spec.keys spec).contains x))
        = ["name"] := by
      simp [REQUIRED_KEYS, List.filter_cons, hn]
    have := validate_keys_missing (Spec.keys spec) ALLOWED_KEYS
      REQUIRED_KEYS SCOPE h1 (by rw [h2]; simp)
    rw [show RequestNode.init spec
        = validate_keys (Spec.keys spec) ALLOWED_KEYS REQUIRED_KEYS SCOPE
        from rfl,
      this, h2]
    rfl

/-- Witness for C7: an unknown key `foo` is rejected naming "foo" and
scope "request"; a fragment missing `name` is rejected naming "name". -/
theorem request_key_validation_witness :
    (∃ bad, RequestNode.init [("foo", CVal.int 1), ("name", CVal.str "r")]
        = .error (.invalidKeys bad "request") ∧ "foo" ∈ bad ∧
        ∀ k' ∈ bad,
          k' ∈ Spec.keys [("foo", CVal.int 1), ("name", CVal.str "r")] ∧
          k' ∉ ALLOWED_KEYS) ∧
    RequestNode.init [("path", CVal.str "p")]
      = .error (.missingKeys ["name"] "request") := by
  constructor
  · exact (request_key_validation
      [("foo", CVal.int 1), ("name", CVal.str "r")]).2.1 "foo"
      (by decide) (by decide)
  · exact (request_key_validation [("path", CVal.str "p")]).2.2
      (by decide) (by decide)

/-! ## C5: header and parameter merging -/

/-- C5: a node's effective headers and params are each the shallow union
of the parent endpoint's mapping and the node's own mapping — the node's
own key wins on a name conflict, an absent own key falls back to the
endpoint's binding — and the merged mapping is evaluated as one structure
by a single call to the template evaluator. -/
theorem headers_params_shallow_union (ev : Evaluator)
    (ns : List (String × CVal)) (spec : List (String × CVal)) (ep : Endpoint)
    (k : String) :
    RequestNode.headers ev ns spec ep
      = ev ns (.dict (pyUnion ep.headers (Spec.getDict spec "headers"))) ∧
    RequestNode.params ev ns spec ep
      = ev ns (.dict (pyUnion ep.params (Spec.getDict spec "params"))) ∧
    (∀ v, NsLookup (Spec.getDict spec "headers") k = some v →
      NsLookup (pyUnion ep.headers (Spec.getDict spec "headers")) k = some v) ∧
    (NsLookup (Spec.getDict spec "headers") k = none →
      NsLookup (pyUnion ep.headers (Spec.getDict spec "headers")) k
        = NsLookup ep.headers k) ∧
    (∀ v, NsLookup (Spec.getDict spec "params") k = some v →
      NsLookup (pyUnion ep.params (Spec.getDict spec "params")) k = some v) ∧
    (NsLookup (Spec.getDict spec "params") k = none →
      NsLookup (pyUnion ep.params (Spec.getDict spec "params")) k
        = NsLookup ep.params k) := by
  refine ⟨rfl, rfl, ?_, ?_, ?_, ?_⟩ <;>
    first
    | (intro v hv; rw [NsLookup_pyUnion, hv])
    | (intro hv; rw [NsLookup_pyUnion, hv])

/-- Witness for C5: with endpoint headers `{A: p, B: pb}` and own headers
`{A: c}`, the effective mapping binds `A` to the own value `c` and `B` to
the inherited value `pb`. -/
theorem headers_params_shallow_union_witness :
    NsLookup (pyUnion [("A", CVal.str "p"), ("B", CVal.str "pb")]
      [("A", CVal.str "c")]) "A" = some (CVal.str "c") ∧
    NsLookup (pyUnion [("A", CVal.str "p"), ("B", CVal.str "pb")]
      [("A", CVal.str "c")]) "B" = some (CVal.str "pb") := by
  constructor
  · exact (headers_params_shallow_union (fun _ v => v) []
      [("headers", CVal.dict [("A", CVal.str "c")])]
      ⟨"", [("A", CVal.str "p"), ("B", CVal.str "pb")], [], []⟩ "A").2.2.1
      (CVal.str "c") rfl
  · have h := (headers_params_shallow_union (fun _ v => v) []
      [("headers", CVal.dict [("A", CVal.str "c")])]
      ⟨"", [("A", CVal.str "p"), ("B", CVal.str "pb")], [], []⟩ "B").2.2.2.1
      rfl
    exact h.trans rfl

/-! ## C6: URL path joining -/

/-- The string of `n` slashes. -/
def slashes (n : Nat) : String :=
  String.mk (List.replicate n '/')

theorem dropWhile_slash_replicate_append (m : Nat) (l : List Char)
    (h : l.head? ≠ some '/') :
    (List.replicate m '/' ++ l).dropWhile (· == '/') = l := by
  induction m with
  | zero =>
    cases l with
    | nil => rfl
    | cons a t =>
      have ha : a ≠ '/' := by simpa using h
      simp [List.dropWhile_cons, ha]
  | succ n ih =>
    simp [List.replicate_succ, List.dropWhile_cons, ih]

theorem stripTrailingSlashes_append_slashes (B : String) (m : Nat)
    (hB : B.data.getLast? ≠ some '/') :
    stripTrailingSlashes (B ++ slashes m) = B := by
  unfold stripTrailingSlashes
  rw [String.data_append,
    show (slashes m).data = List.replicate m '/' from rfl,
    List.reverse_append, List.reverse_replicate,
    dropWhile_slash_replicate_append _ _ (by rwa [List.head?_reverse]),
    List.reverse_reverse]

theorem stripLeadingSlashes_slashes_append (S : String) (n : Nat)
    (hS : S.data.head? ≠ some '/') :
    stripLeadingSlashes (slashes n ++ S) = S := by
  unfold stripLeadingSlashes
  rw [String.data_append,
    show (slashes n).data = List.replicate n '/' from rfl,
    dropWhile_slash_replicate_append _ _ hS]

/-- C6: for a base path `B` (no trailing slash) and a child path `S`
(no leading slash), joining any slash-decorated variants of them
(`B` plus `m` trailing slashes, `S` plus `n` leading slashes) produces
`B ++ "/" ++ S` — exactly one separating slash — and `full_url_path`
passes the joined string (join first) through the template evaluator
(evaluate second) against the node's namespace. -/
theorem full_url_path_single_slash_join (ev : Evaluator)
    (ns : List (String × CVal)) (spec : List (String × CVal)) (ep : Endpoint)
    (B S : String) (m n : Nat)
    (hB : B.data.getLast? ≠ some '/') (hS : S.data.head? ≠ some '/') :
    join_urls (B ++ slashes m) (slashes n ++ S) = B ++ "/" ++ S ∧
    RequestNode.full_url_path ev ns spec ep
      = ev ns (.str (join_urls ep.path
          (pyStr ((Spec.get spec "path").getD (.str ""))))) := by
  refine ⟨?_, rfl⟩
  rw [join_urls, stripTrailingSlashes_append_slashes B m hB,
    stripLeadingSlashes_slashes_append S n hS, String.append_assoc]

/-- Witness for C6: `/api/` joined with `/users` and `/api` joined with
`users` both give `/api/users`. -/
theorem full_url_path_single_slash_join_witness :
    join_urls "/api/" "/users" = "/api/users" ∧
    join_urls "/api" "users" = "/api/users" := by
  have h1 := (full_url_path_single_slash_join (fun _ v => v) [] []
    ⟨"", [], [], []⟩ "/api" "users" 1 1 (by decide) (by decide)).1
  have h2 := (full_url_path_single_slash_join (fun _ v => v) [] []
    ⟨"", [], [], []⟩ "/api" "users" 0 0 (by decide) (by decide)).1
  exact ⟨h1.trans rfl, h2.trans rfl⟩

/-! ## The shape of a completed `run` -/

/-- The namespace after the pre-call `vars.update` of `run`. -/
def preNs (ev : Evaluator) (spec : List (String × CVal)) (ep : Endpoint) :
    List (String × CVal) :=
  SpecEvaluator.update ev ep.vars (Spec.getDict spec "vars") [] false

/-- The response captured by the transport call made inside `run`. -/
def respOf (ev : Evaluator)
    (transport : String → CVal → CVal → CVal → CVal → Bool → CVal)
    (spec : List (String × CVal)) (ep : Endpoint) (m : String) : CVal :=
  transport m (RequestNode.full_url_path ev ep.vars spec ep)
    (RequestNode.headers ev (preNs ev spec ep) spec ep)
    (RequestNode.params ev (preNs ev spec ep) spec ep)
    (RequestNode.body ev (preNs ev spec ep) spec) false

/-- The namespace after the post-call `vars.update` of `run`. -/
def postNs (ev : Evaluator)
    (transport : String → CVal → CVal → CVal → CVal → Bool → CVal)
    (spec : List (String × CVal)) (ep : Endpoint) (m : String) :
    List (String × CVal) :=
  SpecEvaluator.update ev (preNs ev spec ep) (Spec.getDict spec "vars")
    [("response", respOf ev transport spec ep m)] true

/-- The test results produced by `run`. -/
def resultsOf (ev : Evaluator)
    (transport : String → CVal → CVal → CVal → CVal → Bool → CVal)
    (runTest : CVal → List (String × CVal) → TestResult)
    (spec : List (String × CVal)) (ep : Endpoint) (m : String) :
    List TestResult :=
  (Spec.getTests spec).map (fun t => runTest t (postNs ev transport spec ep m))

/-- The collaborator-invocation trace of a completed `run`. -/
def traceOf (ev : Evaluator)
    (transport : String → CVal → CVal → CVal → CVal → Bool → CVal)
    (spec : List (String × CVal)) (ep : Endpoint) (m : String) :
    List Event :=
  [.evaluate ep.vars (.str (join_urls ep.path
      (pyStr ((Spec.get spec "path").getD (.str ""))))),
   .update (Spec.getDict spec "vars") [] false,
   .evaluate (preNs ev spec ep)
     (.dict (pyUnion ep.headers (Spec.getDict spec "headers"))),
   .evaluate (preNs ev spec ep)
     (.dict (pyUnion ep.params (Spec.getDict spec "params"))),
   .evaluate (preNs ev spec ep) ((Spec.get spec "body").getD .null),
   .transport m (RequestNode.full_url_path ev ep.vars spec ep)
     (RequestNode.headers ev (preNs ev spec ep) spec ep)
     (RequestNode.params ev (preNs ev spec ep) spec ep)
     (RequestNode.body ev (preNs ev spec ep) spec) false,
   .update (Spec.getDict spec "vars")
     [("response", respOf ev transport spec ep m)] true]
  ++ (Spec.getTests spec).map .test
  ++ [.hide (respOf ev transport spec ep m)]

/-- The result bundle of a completed `run`. -/
def bundleOf (ev : Evaluator)
    (transport : String → CVal → CVal → CVal → CVal → Bool → CVal)
    (runTest : CVal → List (String × CVal) → TestResult)
    (sensitive : List String)
    (spec : List (String × CVal)) (ep : Endpoint) (m : String) : Bundle :=
  { response := hide_sensitive_info sensitive (respOf ev transport spec ep m)
    tests_results := resultsOf ev transport runTest spec ep m
    no_failure := (resultsOf ev transport runTest spec ep m).all
      (fun r => r.status == TestStatus.PASSED) }

theorem RequestNode.run_eq (ev : Evaluator)
    (transport : String → CVal → CVal → CVal → CVal → Bool → CVal)
    (runTest : CVal → List (String × CVal) → TestResult)
    (sensitive : List String)
    (spec : List (String × CVal)) (ep : Endpoint) (m : String)
    (h : http_method spec = .ok m) :
    RequestNode.run ev transport runTest sensitive spec ep
      = .ok (bundleOf ev transport runTest sensitive spec ep m,
             traceOf ev transport spec ep m) := by
  unfold RequestNode.run
  rw [h]
  rfl

theorem RequestNode.run_err (ev : Evaluator)
    (transport : String → CVal → CVal → CVal → CVal → Bool → CVal)
    (runTest : CVal → List (String × CVal) → TestResult)
    (sensitive : List String)
    (spec : List (String × CVal)) (ep : Endpoint)
    (e : HTTPMethodNotAllowedError) (h : http_method spec = .error e) :
    RequestNode.run ev transport runTest sensitive spec ep = .error e := by
  unfold RequestNode.run
  rw [h]
  rfl

theorem filter_map_test_eq_nil (p : Event → Bool)
    (hp : ∀ t, p (Event.test t) = false) (l : List CVal) :
    (l.map Event.test).filter p = [] := by
  induction l with
  | nil => rfl
  | cons a t ih => simp [List.filter_cons, hp, ih]

theorem NsLookup_map_keyPreserving (f : String → CVal → CVal)
    (l : List (String × CVal)) (k : String) :
    NsLookup (l.map (fun p => (p.1, f p.1 p.2))) k
      = (NsLookup l k).map (f k) := by
  induction l with
  | nil => simp [NsLookup]
  | cons p t ih =>
    obtain ⟨k', v⟩ := p
    by_cases h : k' = k <;> simp [NsLookup, h, ih]

/-- A field in the redaction set that is present among the response's
headers is reported as the mask token after `hide_sensitive_info`. -/
theorem hide_masks_headers (sensitive : List String) (r : CVal) (k : String)
    (v : CVal) (hk : k ∈ sensitive) (h : respHeaderLookup r k = some v) :
    respHeaderLookup (hide_sensitive_info sensitive r) k
      = some (.str SENSITIVE_INFO) := by
  cases r with
  | dict fields =>
    have h' : (match NsLookup fields "headers" with
        | some (.dict hs) => NsLookup hs k
        | _ => none) = some v := h
    show (match NsLookup (fields.map (fun p =>
          (p.1, if p.1 = "headers" ∨ p.1 = "body" then maskFields sensitive p.2
            else p.2))) "headers" with
        | some (.dict hs) => NsLookup hs k
        | _ => none) = some (.str SENSITIVE_INFO)
    rw [NsLookup_map_keyPreserving (fun k₀ v₀ =>
      if k₀ = "headers" ∨ k₀ = "body" then maskFields sensitive v₀ else v₀)]
    cases hh : NsLookup fields "headers" with
    | none =>
      rw [hh] at h'
      exact Option.noConfusion h'
    | some hv =>
      rw [hh] at h'
      cases hv with
      | dict hs =>
        have h'' : NsLookup hs k = some v := h'
        show NsLookup (hs.map (fun p =>
            (p.1, if p.1 ∈ sensitive then CVal.str SENSITIVE_INFO else p.2))) k
          = some (CVal.str SENSITIVE_INFO)
        rw [NsLookup_map_keyPreserving (fun k₀ v₀ =>
          if k₀ ∈ sensitive then CVal.str SENSITIVE_INFO else v₀), h'']
        simp [hk]
      | str s => exact Option.noConfusion h'
      | int n => exact Option.noConfusion h'
      | bool b => exact Option.noConfusion h'
      | null => exact Option.noConfusion h'
      | list l => exact Option.noConfusion h'
  | str s => exact Option.noConfusion h
  | int n => exact Option.noConfusion h
  | bool b => exact Option.noConfusion h
  | null => exact Option.noConfusion h
  | list l => exact Option.noConfusion h

theorem testStatus_beq_passed (s : TestStatus) :
    ((s == TestStatus.PASSED) = true) ↔ s = TestStatus.PASSED := by
  cases s <;> decide

/-! ## Concrete collaborators and configurations used in examples -/

/-- An evaluator that returns the namespace it observed, making visible
which namespace state each evaluation call received. -/
def evProbe : Evaluator := fun ns _ => .dict ns

/-- The identity evaluator (no placeholders anywhere). -/
def evId : Evaluator := fun _ v => v

/-- A transport stub returning a response with an `Authorization`
header. -/
def transportW : String → CVal → CVal → CVal → CVal → Bool → CVal :=
  fun _ _ _ _ _ _ =>
    .dict [("headers", .dict [("Authorization", .str "secret123")]),
           ("status_code", .int 200)]

/-- A transport stub returning an empty response. -/
def transportNull : String → CVal → CVal → CVal → CVal → Bool → CVal :=
  fun _ _ _ _ _ _ => .null

/-- A test runner stub whose tests always pass. -/
def runTestPass : CVal → List (String × CVal) → TestResult :=
  fun _ _ => ⟨.PASSED⟩

/-- A request configuration with a name, one variable binding and one
test. -/
def specW : List (String × CVal) :=
  [("name", .str "r"), ("vars", .dict [("x", .str "1")]),
   ("tests", .list [.str "t1"])]

/-- A request configuration with a name and one variable binding. -/
def specV : List (String × CVal) :=
  [("name", .str "r"), ("vars", .dict [("x", .str "1")])]

/-- An endpoint with a path and one inherited header. -/
def epW : Endpoint := ⟨"/api", [("A", .str "p")], [], []⟩

/-- An endpoint with nothing configured. -/
def epE : Endpoint := ⟨"", [], [], []⟩

/-! ## C3: the no-failure flag -/

/-- C3: the result bundle's `no_failure` flag is true iff every test
result's status is PASSED; zero test specifications give an empty
`tests_results` and `no_failure = true`. -/
theorem no_failure_iff_all_passed (ev : Evaluator)
    (transport : String → CVal → CVal → CVal → CVal → Bool → CVal)
    (runTest : CVal → List (String × CVal) → TestResult)
    (sensitive : List String) (spec : List (String × CVal)) (ep : Endpoint)
    (b : Bundle) (tr : List Event)
    (hrun : RequestNode.run ev transport runTest sensitive spec ep
      = .ok (b, tr)) :
    (b.no_failure = true ↔
      ∀ r ∈ b.tests_results, r.status = TestStatus.PASSED) ∧
    (Spec.getTests spec = [] →
      b.tests_results = [] ∧ b.no_failure = true) := by
  cases hm : http_method spec with
  | error e =>
    rw [RequestNode.run_err ev transport runTest sensitive spec ep e hm]
      at hrun
    exact Except.noConfusion hrun
  | ok m =>
    rw [RequestNode.run_eq ev transport runTest sensitive spec ep m hm]
      at hrun
    injection hrun with h
    injection h with hb ht
    subst hb
    constructor
    · show (bundleOf ev transport runTest sensitive spec ep m).no_failure
          = true ↔ _
      simp only [bundleOf, List.all_eq_true, testStatus_beq_passed]
    · intro h0
      show (bundleOf ev transport runTest sensitive spec ep m).tests_results
          = [] ∧ _
      simp [bundleOf, resultsOf, h0]

/-- Witness for C3: a concrete run with one always-passing test. -/
theorem no_failure_iff_all_passed_witness :
    ((bundleOf evId transportW runTestPass ["Authorization"] specW epW
        "GET").no_failure = true ↔
      ∀ r ∈ (bundleOf evId transportW runTestPass ["Authorization"] specW epW
        "GET").tests_results, r.status = TestStatus.PASSED) ∧
    (Spec.getTests specW = [] →
      (bundleOf evId transportW runTestPass ["Authorization"] specW epW
        "GET").tests_results = [] ∧
      (bundleOf evId transportW runTestPass ["Authorization"] specW epW
        "GET").no_failure = true) :=
  no_failure_iff_all_passed evId transportW runTestPass ["Authorization"]
    specW epW _ _
    (RequestNode.run_eq evId transportW runTestPass ["Authorization"]
      specW epW "GET" rfl)

/-! ## C1: the two-phase variable update around the transport call -/

/-- C1: `run` makes exactly two `vars.update` calls, both with the node's
configured `vars` bindings: one before the transport call with
`preevaluate = false` and no extras, and one after it with
`preevaluate = true` and extras binding the captured response under the
reserved name "response"; the post-update namespace (the one handed to
the tests) binds "response" to the captured response. -/
theorem two_phase_vars_update (ev : Evaluator)
    (transport : String → CVal → CVal → CVal → CVal → Bool → CVal)
    (runTest : CVal → List (String × CVal) → TestResult)
    (sensitive : List String) (spec : List (String × CVal)) (ep : Endpoint)
    (b : Bundle) (tr : List Event)
    (hrun : RequestNode.run ev transport runTest sensitive spec ep
      = .ok (b, tr)) :
    ∃ m, http_method spec = .ok m ∧
      tr.filter Event.isUpdate
        = [Event.update (Spec.getDict spec "vars") [] false,
           Event.update (Spec.getDict spec "vars")
             [("response", respOf ev transport spec ep m)] true] ∧
      (∃ t1 t2 t3,
        tr = t1 ++ Event.update (Spec.getDict spec "vars") [] false ::
          (t2 ++ Event.update (Spec.getDict spec "vars")
            [("response", respOf ev transport spec ep m)] true :: t3) ∧
        Event.transport m (RequestNode.full_url_path ev ep.vars spec ep)
          (RequestNode.headers ev (preNs ev spec ep) spec ep)
          (RequestNode.params ev (preNs ev spec ep) spec ep)
          (RequestNode.body ev (preNs ev spec ep) spec) false ∈ t2) ∧
      NsLookup (postNs ev transport spec ep m) "response"
        = some (respOf ev transport spec ep m) := by
  cases hm : http_method spec with
  | error e =>
    rw [RequestNode.run_err ev transport runTest sensitive spec ep e hm]
      at hrun
    exact Except.noConfusion hrun
  | ok m =>
    rw [RequestNode.run_eq ev transport runTest sensitive spec ep m hm]
      at hrun
    injection hrun with h
    injection h with hb ht
    subst ht
    refine ⟨m, rfl, ?_, ?_, ?_⟩
    · show (traceOf ev transport spec ep m).filter Event.isUpdate = _
      simp [traceOf, List.filter_append, List.filter_cons, Event.isUpdate,
        filter_map_test_eq_nil Event.isUpdate (fun _ => rfl)]
    · refine ⟨[Event.evaluate ep.vars (.str (join_urls ep.path
          (pyStr ((Spec.get spec "path").getD (.str "")))))],
        [Event.evaluate (preNs ev spec ep)
           (.dict (pyUnion ep.headers (Spec.getDict spec "headers"))),
         Event.evaluate (preNs ev spec ep)
           (.dict (pyUnion ep.params (Spec.getDict spec "params"))),
         Event.evaluate (preNs ev spec ep) ((Spec.get spec "body").getD .null),
         Event.transport m (RequestNode.full_url_path ev ep.vars spec ep)
           (RequestNode.headers ev (preNs ev spec ep) spec ep)
           (RequestNode.params ev (preNs ev spec ep) spec ep)
           (RequestNode.body ev (preNs ev spec ep) spec) false],
        (Spec.getTests spec).map Event.test
          ++ [Event.hide (respOf ev transport spec ep m)],
        rfl, ?_⟩
      simp
    · show NsLookup (pyUnion (pyUnion (preNs ev spec ep) _)
          [("response", respOf ev transport spec ep m)]) "response" = _
      rw [NsLookup_pyUnion]
      simp [NsLookup]

/-- Witness for C1: the two update calls of a concrete run. -/
theorem two_phase_vars_update_witness :
    ∃ m, http_method specW = .ok m ∧
      (traceOf evId transportW specW epW "GET").filter Event.isUpdate
        = [Event.update (Spec.getDict specW "vars") [] false,
           Event.update (Spec.getDict specW "vars")
             [("response", respOf evId transportW specW epW m)] true] ∧
      (∃ t1 t2 t3,
        traceOf evId transportW specW epW "GET"
          = t1 ++ Event.update (Spec.getDict specW "vars") [] false ::
            (t2 ++ Event.update (Spec.getDict specW "vars")
              [("response", respOf evId transportW specW epW m)] true :: t3) ∧
        Event.transport m
          (RequestNode.full_url_path evId epW.vars specW epW)
          (RequestNode.headers evId (preNs evId specW epW) specW epW)
          (RequestNode.params evId (preNs evId specW epW) specW epW)
          (RequestNode.body evId (preNs evId specW epW) specW) false ∈ t2) ∧
      NsLookup (postNs evId transportW specW epW m) "response"
        = some (respOf evId transportW specW epW m) :=
  two_phase_vars_update evId transportW runTestPass ["Authorization"]
    specW epW _ _
    (RequestNode.run_eq evId transportW runTestPass ["Authorization"]
      specW epW "GET" rfl)

/-! ## C9: the transport invocation -/

/-- C9: the trace of a completed `run` contains exactly one transport
invocation, carrying the resolved method, URL, headers, params and body,
with redirect-following disabled (`allow_redirects = false`). -/
theorem transport_called_exactly_once (ev : Evaluator)
    (transport : String → CVal → CVal → CVal → CVal → Bool → CVal)
    (runTest : CVal → List (String × CVal) → TestResult)
    (sensitive : List String) (spec : List (String × CVal)) (ep : Endpoint)
    (b : Bundle) (tr : List Event)
    (hrun : RequestNode.run ev transport runTest sensitive spec ep
      = .ok (b, tr)) :
    ∃ m, http_method spec = .ok m ∧
      tr.filter Event.isTransport
        = [Event.transport m (RequestNode.full_url_path ev ep.vars spec ep)
            (RequestNode.headers ev (preNs ev spec ep) spec ep)
            (RequestNode.params ev (preNs ev spec ep) spec ep)
            (RequestNode.body ev (preNs ev spec ep) spec) false] := by
  cases hm : http_method spec with
  | error e =>
    rw [RequestNode.run_err ev transport runTest sensitive spec ep e hm]
      at hrun
    exact Except.noConfusion hrun
  | ok m =>
    rw [RequestNode.run_eq ev transport runTest sensitive spec ep m hm]
      at hrun
    injection hrun with h
    injection h with hb ht
    subst ht
    refine ⟨m, rfl, ?_⟩
    show (traceOf ev transport spec ep m).filter Event.isTransport = _
    simp [traceOf, List.filter_append, List.filter_cons, Event.isTransport,
      filter_map_test_eq_nil Event.isTransport (fun _ => rfl)]

/-- Witness for C9: the single transport event of a concrete run. -/
theorem transport_called_exactly_once_witness :
    ∃ m, http_method specW = .ok m ∧
      (traceOf evId transportW specW epW "GET").filter Event.isTransport
        = [Event.transport m
            (RequestNode.full_url_path evId epW.vars specW epW)
            (RequestNode.headers evId (preNs evId specW epW) specW epW)
            (RequestNode.params evId (preNs evId specW epW) specW epW)
            (RequestNode.body evId (preNs evId specW epW) specW) false] :=
  transport_called_exactly_once evId transportW runTestPass
    ["Authorization"] specW epW _ _
    (RequestNode.run_eq evId transportW runTestPass ["Authorization"]
      specW epW "GET" rfl)

/-! ## C8: redaction strictly after test evaluation -/

/-- C8: in the trace of a completed `run`, the redaction step comes
strictly after every test evaluation; the tests receive the namespace in
which the unredacted response is bound under "response", while the
bundle's reported response is the redacted one, with every
sensitive-listed header field masked. -/
theorem redaction_after_tests (ev : Evaluator)
    (transport : String → CVal → CVal → CVal → CVal → Bool → CVal)
    (runTest : CVal → List (String × CVal) → TestResult)
    (sensitive : List String) (spec : List (String × CVal)) (ep : Endpoint)
    (b : Bundle) (tr : List Event)
    (hrun : RequestNode.run ev transport runTest sensitive spec ep
      = .ok (b, tr)) :
    ∃ m, http_method spec = .ok m ∧
      (∃ p, tr = p ++ (Spec.getTests spec).map Event.test
            ++ [Event.hide (respOf ev transport spec ep m)] ∧
        ∀ e ∈ p, e.isTest = false ∧ e.isHide = false) ∧
      b.tests_results = (Spec.getTests spec).map
        (fun t => runTest t (postNs ev transport spec ep m)) ∧
      NsLookup (postNs ev transport spec ep m) "response"
        = some (respOf ev transport spec ep m) ∧
      b.response
        = hide_sensitive_info sensitive (respOf ev transport spec ep m) ∧
      (∀ k v, k ∈ sensitive →
        respHeaderLookup (respOf ev transport spec ep m) k = some v →
        respHeaderLookup b.response k = some (.str SENSITIVE_INFO)) := by
  cases hm : http_method spec with
  | error e =>
    rw [RequestNode.run_err ev transport runTest sensitive spec ep e hm]
      at hrun
    exact Except.noConfusion hrun
  | ok m =>
    rw [RequestNode.run_eq ev transport runTest sensitive spec ep m hm]
      at hrun
    injection hrun with h
    injection h with hb ht
    subst hb
    subst ht
    refine ⟨m, rfl, ?_, rfl, ?_, rfl, ?_⟩
    · refine ⟨[Event.evaluate ep.vars (.str (join_urls ep.path
          (pyStr ((Spec.get spec "path").getD (.str ""))))),
        Event.update (Spec.getDict spec "vars") [] false,
        Event.evaluate (preNs ev spec ep)
          (.dict (pyUnion ep.headers (Spec.getDict spec "headers"))),
        Event.evaluate (preNs ev spec ep)
          (.dict (pyUnion ep.params (Spec.getDict spec "params"))),
        Event.evaluate (preNs ev spec ep) ((Spec.get spec "body").getD .null),
        Event.transport m (RequestNode.full_url_path ev ep.vars spec ep)
          (RequestNode.headers ev (preNs ev spec ep) spec ep)
          (RequestNode.params ev (preNs ev spec ep) spec ep)
          (RequestNode.body ev (preNs ev spec ep) spec) false,
        Event.update (Spec.getDict spec "vars")
          [("response", respOf ev transport spec ep m)] true], rfl, ?_⟩
      intro e he
      simp only [List.mem_cons, List.not_mem_nil, or_false] at he
      rcases he with rfl | rfl | rfl | rfl | rfl | rfl | rfl <;>
        exact ⟨rfl, rfl⟩
    · show NsLookup (pyUnion (pyUnion (preNs ev spec ep) _)
          [("response", respOf ev transport spec ep m)]) "response" = _
      rw [NsLookup_pyUnion]
      simp [NsLookup]
    · intro k v hk hv
      exact hide_masks_headers sensitive _ k v hk hv

/-- Witness for C8: in a concrete run with redaction set {Authorization},
the reported response's `Authorization` header is the mask token, while
the response the tests saw still carried `secret123`. -/
theorem redaction_after_tests_witness :
    respHeaderLookup (bundleOf evId transportW runTestPass ["Authorization"]
        specW epW "GET").response "Authorization"
      = some (.str SENSITIVE_INFO) ∧
    respHeaderLookup (respOf evId transportW specW epW "GET") "Authorization"
      = some (.str "secret123") := by
  obtain ⟨m, hm, -, -, -, -, hmask⟩ :=
    redaction_after_tests evId transportW runTestPass ["Authorization"]
      specW epW _ _
      (RequestNode.run_eq evId transportW runTestPass ["Authorization"]
        specW epW "GET" rfl)
  exact ⟨hmask "Authorization" (.str "secret123") (by simp) rfl, rfl⟩

/-! ## C2: when the request arguments are resolved -/

/-- Counterexample to C2 as stated: it is not the case that in every
completed `run` the transport call's headers, params and body were
resolved against the namespace as it stood at the start of `run`
(i.e. before the pre-call `vars.update`).  With the probing evaluator,
a configured variable binding `x` and an empty endpoint namespace, the
transport call demonstrably receives values evaluated against the
namespace already containing `x`. -/
theorem requests_args_not_preresolved :
    ¬ (∀ (ev : Evaluator)
        (transport : String → CVal → CVal → CVal → CVal → Bool → CVal)
        (runTest : CVal → List (String × CVal) → TestResult)
        (sensitive : List String) (spec : List (String × CVal)) (ep : Endpoint)
        (b : Bundle) (tr : List Event),
        RequestNode.run ev transport runTest sensitive spec ep = .ok (b, tr) →
        ∃ m, http_method spec = .ok m ∧
          tr.filter Event.isTransport
            = [Event.transport m
                (RequestNode.full_url_path ev ep.vars spec ep)
                (RequestNode.headers ev ep.vars spec ep)
                (RequestNode.params ev ep.vars spec ep)
                (RequestNode.body ev ep.vars spec) false]) := by
  intro hall
  obtain ⟨m, hm, heq⟩ := hall evProbe transportNull runTestPass [] specV epE
    _ _
    (RequestNode.run_eq evProbe transportNull runTestPass [] specV epE
      "GET" rfl)
  have hL : (traceOf evProbe transportNull specV epE "GET").filter
      Event.isTransport
      = [Event.transport "GET" (.dict []) (.dict [("x", CVal.str "1")])
          (.dict [("x", CVal.str "1")]) (.dict [("x", CVal.str "1")])
          false] := rfl
  rw [hL] at heq
  injection heq with hhead _
  injection hhead with _ _ hh _ _ _
  have hcontra : CVal.dict [("x", CVal.str "1")] = CVal.dict [] :=
    hh.trans (rfl :
      RequestNode.headers evProbe epE.vars specV epE = CVal.dict [])
  injection hcontra with hnil
  exact List.noConfusion hnil

/-- C2 amended: only the method and the URL are resolved before the
pre-call namespace update — the URL's template evaluation observes the
namespace as it stood at the start of `run`, and precedes the pre-call
update event — while headers, params and body are resolved afterwards,
as arguments of the transport call, against the namespace produced by
the pre-call update (so they do observe the bindings it stored). -/
theorem method_url_resolved_first_args_after_update (ev : Evaluator)
    (transport : String → CVal → CVal → CVal → CVal → Bool → CVal)
    (runTest : CVal → List (String × CVal) → TestResult)
    (sensitive : List String) (spec : List (String × CVal)) (ep : Endpoint)
    (b : Bundle) (tr : List Event)
    (hrun : RequestNode.run ev transport runTest sensitive spec ep
      = .ok (b, tr)) :
    ∃ m, http_method spec = .ok m ∧
      tr.filter Event.isTransport
        = [Event.transport m (RequestNode.full_url_path ev ep.vars spec ep)
            (RequestNode.headers ev (preNs ev spec ep) spec ep)
            (RequestNode.params ev (preNs ev spec ep) spec ep)
            (RequestNode.body ev (preNs ev spec ep) spec) false] ∧
      (∃ t2, tr
          = Event.evaluate ep.vars (.str (join_urls ep.path
              (pyStr ((Spec.get spec "path").getD (.str ""))))) ::
            Event.update (Spec.getDict spec "vars") [] false :: t2 ∧
        Event.evaluate (preNs ev spec ep)
          (.dict (pyUnion ep.headers (Spec.getDict spec "headers"))) ∈ t2 ∧
        Event.evaluate (preNs ev spec ep)
          (.dict (pyUnion ep.params (Spec.getDict spec "params"))) ∈ t2 ∧
        Event.evaluate (preNs ev spec ep)
          ((Spec.get spec "body").getD .null) ∈ t2) := by
  cases hm : http_method spec with
  | error e =>
    rw [RequestNode.run_err ev transport runTest sensitive spec ep e hm]
      at hrun
    exact Except.noConfusion hrun
  | ok m =>
    rw [RequestNode.run_eq ev transport runTest sensitive spec ep m hm]
      at hrun
    injection hrun with h
    injection h with hb ht
    subst ht
    refine ⟨m, rfl, ?_, ?_⟩
    · show (traceOf ev transport spec ep m).filter Event.isTransport = _
      simp [traceOf, List.filter_append, List.filter_cons, Event.isTransport,
        filter_map_test_eq_nil Event.isTransport (fun _ => rfl)]
    · refine ⟨[Event.evaluate (preNs ev spec ep)
          (.dict (pyUnion ep.headers (Spec.getDict spec "headers"))),
        Event.evaluate (preNs ev spec ep)
          (.dict (pyUnion ep.params (Spec.getDict spec "params"))),
        Event.evaluate (preNs ev spec ep) ((Spec.get spec "body").getD .null),
        Event.transport m (RequestNode.full_url_path ev ep.vars spec ep)
          (RequestNode.headers ev (preNs ev spec ep) spec ep)
          (RequestNode.params ev (preNs ev spec ep) spec ep)
          (RequestNode.body ev (preNs ev spec ep) spec) false,
        Event.update (Spec.getDict spec "vars")
          [("response", respOf ev transport spec ep m)] true]
        ++ (Spec.getTests spec).map Event.test
        ++ [Event.hide (respOf ev transport spec ep m)],
        rfl, ?_, ?_, ?_⟩ <;> simp

/-- Witness for the amended C2, on a concrete run: the URL evaluation
event carries the entry namespace, the transport call's headers carry
the post-update namespace. -/
theorem method_url_resolved_first_args_after_update_witness :
    ∃ m, http_method specV = .ok m ∧
      (traceOf evProbe transportNull specV epE "GET").filter
          Event.isTransport
        = [Event.transport m
            (RequestNode.full_url_path evProbe epE.vars specV epE)
            (RequestNode.headers evProbe (preNs evProbe specV epE) specV epE)
            (RequestNode.params evProbe (preNs evProbe specV epE) specV epE)
            (RequestNode.body evProbe (preNs evProbe specV epE) specV)
            false] ∧
      (∃ t2, traceOf evProbe transportNull specV epE "GET"
          = Event.evaluate epE.vars (.str (join_urls epE.path
              (pyStr ((Spec.get specV "path").getD (.str ""))))) ::
            Event.update (Spec.getDict specV "vars") [] false :: t2 ∧
        Event.evaluate (preNs evProbe specV epE)
          (.dict (pyUnion epE.headers (Spec.getDict specV "headers"))) ∈ t2 ∧
        Event.evaluate (preNs evProbe specV epE)
          (.dict (pyUnion epE.params (Spec.getDict specV "params"))) ∈ t2 ∧
        Event.evaluate (preNs evProbe specV epE)
          ((Spec.get specV "body").getD .null) ∈ t2) :=
  method_url_resolved_first_args_after_update evProbe transportNull
    runTestPass [] specV epE _ _
    (RequestNode.run_eq evProbe transportNull runTestPass [] specV epE
      "GET" rfl)

end Scanapi
